import Mathlib

set_option linter.unreachableTactic false
set_option linter.unnecessarySeqFocus false
set_option linter.unusedTactic false

/-!
Shallow embedding of the faceteer/converter repository: the bidirectional
DynamoDB value converter (src/converter.ts), its type classifier
(src/types.ts), the set abstraction (src/set.ts) and the converter options
(src/converter-options.ts).

JavaScript numbers are modelled abstractly: `NumberModel` packages a type of
finite numbers together with the ECMAScript `Number.prototype.toString` /
`Number(...)` pair and the ECMAScript guarantees the converter relies on
(round-tripping of the canonical decimal form, and non-emptiness of the
rendered string).  Binary payloads (`Buffer` / typed arrays) are byte lists.
-/

/-- Model of the ECMAScript finite-number primitives used by the converter:
`toStr` is `Number.prototype.toString`, `ofStr` is the `Number(...)`
conversion.  ECMAScript guarantees `Number(x.toString()) === x` for finite
`x`, and that `toString` of a number is never the empty string. -/
structure NumberModel where
  Num : Type
  toStr : Num → String
  ofStr : String → Num
  round : ∀ x : Num, ofStr (toStr x) = x
  toStr_ne : ∀ x : Num, toStr x ≠ ""

/-- Binary payloads (Buffer, Uint8Array, ...) are byte sequences. -/
abbrev Bin := List Nat

/-- Length of a binary payload (the `length` property of a Buffer). -/
def Bin.len (b : Bin) : Nat := List.length b

/-- Payload that can sit under the `BOOL` key of a wire attribute: the source
handles it defensively, accepting booleans and strings. -/
inductive BoolLike where
  | b (x : Bool)
  | s (x : String)
deriving DecidableEq

/-- JavaScript template stringification of a `BOOL` payload, as in
the source expression `const boolString = s!\x7bdata[key]\x7d`. -/
def BoolLike.toStr : BoolLike → String
  | .b true => "true"
  | .b false => "false"
  | .s x => x

/-- The NumberValue wrapper class (src/converter.ts): stores the value given
to the constructor verbatim. -/
structure NumberValue where
  value : String
deriving DecidableEq

/-- NumberValue.toString: returns a string representing the unaltered value
provided to the constructor. -/
def NumberValue.toStr (n : NumberValue) : String := n.value

/-- Native JavaScript values in the domain the converter operates on,
parametrised by the number model's carrier.  Set-classified values (objects
whose `wrapperName` is `'Set'`) appear in four flavours: the three coherent
declared element types `String` / `Number` / `Binary` (constructors `sset`,
`nset`, `bset`), and `xset t vals` for a Set-classified value whose declared
`type` field `t` is none of those three names; such a value's members only
influence `formatSet` through emptiness and count, so they are modelled as
opaque strings. -/
inductive NativeValue (Num : Type) where
  | str (s : String)
  | num (x : Num)
  | numWrap (w : NumberValue)
  | bool (b : Bool)
  | null
  | undefinedV
  | func
  | date (iso : String) (unix : Int)
  | bin (b : Bin)
  | arr (l : List (NativeValue Num))
  | obj (props : List (String × NativeValue Num))
  | sset (l : List String)
  | nset (l : List Num)
  | bset (l : List Bin)
  | xset (t : String) (vals : List String)

/-- Wire-side tagged attribute (src/attribute-value.ts): a single-key record.
Every return site of the source constructs at most one key; `empty` is the
keyless object `\x7b\x7d` that `formatSet` returns when the declared set type
matches no case of its switch. -/
inductive Attr where
  | S (v : String)
  | N (v : String)
  | B (v : Bin)
  | SS (v : List String)
  | NS (v : List String)
  | BS (v : List Bin)
  | M (props : List (String × Attr))
  | L (l : List Attr)
  | NULL (v : Bool)
  | BOOL (v : BoolLike)
  | empty

/-- Number of populated keys of a tagged attribute. -/
def Attr.keyCount : Attr → Nat
  | .empty => 0
  | _ => 1

/-- ConverterOptions (src/converter-options.ts).  The optional fields default
to the falsy behaviour of an absent property; `dateFormat` defaults to
`iso` (the source only ever tests `options.dateFormat === 'unix'`). -/
inductive DateFormat where
  | iso
  | unix
deriving DecidableEq

structure ConverterOptions where
  convertEmptyValues : Bool := false
  wrapNumbers : Bool := false
  dateFormat : DateFormat := .iso

/-- typeOf (src/types.ts): the type classifier.  Dates first, then null,
then the binary check, then `wrapperName` (the set abstraction declares
`wrapperName = 'Set'`), then the constructor name (`NumberValue`, `Object`,
`Array`, `String`, `Number`, `Boolean`, `Function`), and `undefined`
otherwise. -/
def typeOf {Num : Type} : NativeValue Num → String
  | .date _ _ => "Date"
  | .null => "null"
  | .bin _ => "Binary"
  | .undefinedV => "undefined"
  | .sset _ => "Set"
  | .nset _ => "Set"
  | .bset _ => "Set"
  | .xset _ _ => "Set"
  | .numWrap _ => "NumberValue"
  | .obj _ => "Object"
  | .arr _ => "Array"
  | .str _ => "String"
  | .num _ => "Number"
  | .bool _ => "Boolean"
  | .func => "Function"

/-- memberTypeToSetType (src/set.ts): the mapping from a member's classified
type to the set's declared type. -/
def memberTypeToSetType : String → Option String
  | "String" => some "String"
  | "Number" => some "Number"
  | "NumberValue" => some "Number"
  | "Binary" => some "Binary"
  | _ => none

/-- DynamoDBSet construction (src/set.ts).  The constructor runs
`initialize`, which evaluates `this.values.concat(...list)` and discards the
result — `Array.prototype.concat` returns a new array and does not mutate —
so `this.values` keeps its initializer `[]`.  `detectType` then classifies
`this.values[0]`, which is `undefined` for the empty array, looks that up in
`memberTypeToSetType`, and throws when the lookup misses. -/
def mkDynamoDBSet (nm : NumberModel) (list : List (NativeValue nm.Num)) :
    Except String (NativeValue nm.Num) :=
  let values : List (NativeValue nm.Num) := []
  let _discarded := values ++ list
  let memberType : String :=
    match values.head? with
    | some v => typeOf v
    | none => "undefined"
  match memberTypeToSetType memberType with
  | some "Number" => .ok (.nset [])
  | some "Binary" => .ok (.bset [])
  | some _ => .ok (.sset [])
  | none => .error "Sets can contain string, number, or binary values"

/-- Message of the Unconvertible Type error thrown by `Converter.input`. -/
def unconvertibleMsg (t : String) : String :=
  "Unable to convert property to a Dynamo DB attribute with type " ++ t

/-- convertNumber (src/converter.ts): wrap in a NumberValue when
`wrapNumbers` is set, else parse with `Number(...)`. -/
def convertNumber (nm : NumberModel) (value : String) (wrapNumbers : Bool) :
    NativeValue nm.Num :=
  if wrapNumbers then .numWrap ⟨value⟩ else .num (nm.ofStr value)

/-- toBuffer (src/converter.ts) restricted to actual binary payloads: a
Buffer object is never falsy (even when empty) and satisfies the
`instanceof` test, so it is returned as-is, with no copy. -/
def toBuffer (b : Bin) : Bin := b

mutual

/-- Converter.input (src/converter.ts): marshal a native value into a tagged
attribute, dispatching on `typeOf`.  The branches appear in source order;
the trailing custom-constructor fall-through (`formatMap` on any other named
type) has no inhabitant in the modelled value domain.  Failures (`throw`)
are `Except.error`. -/
def Converter.input (nm : NumberModel) :
    NativeValue nm.Num → ConverterOptions → Except String Attr
  | .date iso unix, o =>
      -- formatDate: unix seconds as a decimal string, or toISOString()
      if o.dateFormat = .unix then .ok (.S (toString unix))
      else .ok (.S iso)
  | .obj props, o => do
      -- formatMap
      let m ← Converter.inputMap nm props o
      .ok (.M m)
  | .arr l, o => do
      -- formatList
      let la ← Converter.inputList nm l o
      .ok (.L la)
  | .sset l, o =>
      -- formatSet with data.type = 'String': potentiallyEmptyTypes is true,
      -- so convertEmptyValues filters out zero-length members first
      let values := if o.convertEmptyValues then l.filter (fun s => s ≠ "") else l
      if o.convertEmptyValues && values.isEmpty then .ok (.NULL true)
      else .ok (.SS values)
  | .nset l, o =>
      -- formatSet with data.type = 'Number': potentiallyEmptyTypes is false,
      -- so the members pass through filterEmptySetValues unchanged; the
      -- length-0 check still applies under convertEmptyValues, and the
      -- members are stringified into NS
      if o.convertEmptyValues && l.isEmpty then .ok (.NULL true)
      else .ok (.NS (l.map nm.toStr))
  | .bset l, o =>
      -- formatSet with data.type = 'Binary': filtered like strings
      let values := if o.convertEmptyValues then l.filter (fun b => b ≠ ([] : Bin)) else l
      if o.convertEmptyValues && values.isEmpty then .ok (.NULL true)
      else .ok (.BS values)
  | .xset _ vals, o =>
      -- formatSet with a declared type outside String/Number/Binary: the
      -- potentiallyEmptyTypes lookup is undefined (falsy) so nothing is
      -- filtered; if convertEmptyValues finds no members the result is
      -- Converter.input(null) = NULL, otherwise the switch over data.type
      -- matches no case and the freshly created map is returned empty
      if o.convertEmptyValues && vals.isEmpty then .ok (.NULL true)
      else .ok .empty
  | .str s, o =>
      if s.length = 0 ∧ o.convertEmptyValues then .ok (.NULL true) -- this.input(null)
      else .ok (.S s)
  | .num x, _ => .ok (.N (nm.toStr x))
  | .numWrap w, _ => .ok (.N w.toStr) -- 'NumberValue' joins the 'Number' branch
  | .bin b, o =>
      if b.len = 0 ∧ o.convertEmptyValues then .ok (.NULL true) -- this.input(null)
      else .ok (.B b)
  | .bool b, _ => .ok (.BOOL (.b b))
  | .null, _ => .ok (.NULL true)
  | .undefinedV, _ => .error (unconvertibleMsg "undefined")
  | .func, _ => .error (unconvertibleMsg "Function")

/-- formatList's loop: marshal every element in order; an error propagates. -/
def Converter.inputList (nm : NumberModel) :
    List (NativeValue nm.Num) → ConverterOptions → Except String (List Attr)
  | [], _ => .ok []
  | v :: rest, o => do
      let a ← Converter.input nm v o
      let la ← Converter.inputList nm rest o
      .ok (a :: la)

/-- formatMap's loop over the enumerable own properties.  The source guards
`if (formatted !== void 0)` before inserting, but `Converter.input` never
returns undefined — its fall-through throws — so every marshalled property
is inserted. -/
def Converter.inputMap (nm : NumberModel) :
    List (String × NativeValue nm.Num) → ConverterOptions →
    Except String (List (String × Attr))
  | [], _ => .ok []
  | (k, v) :: rest, o => do
      let a ← Converter.input nm v o
      let m ← Converter.inputMap nm rest o
      .ok ((k, a) :: m)

end

/-- Converter.marshall: `this.input(data, options).M` — marshal the record as
an object and project the `M` payload (input of an object always yields an
`M` attribute). -/
def Converter.marshall (nm : NumberModel)
    (props : List (String × NativeValue nm.Num)) (o : ConverterOptions) :
    Except String (List (String × Attr)) := do
  let a ← Converter.input nm (.obj props) o
  match a with
  | .M m => .ok m
  | _ => .ok []

mutual

/-- Converter.output (src/converter.ts): unmarshal a tagged attribute,
dispatching on the populated key.  The `SS`/`NS`/`BS` branches build the
member list and then construct a `DynamoDBSet` from it; `empty` is the
record in which the for-in loop finds no key, so the function returns
undefined. -/
def Converter.output (nm : NumberModel) :
    Attr → ConverterOptions → Except String (NativeValue nm.Num)
  | .M props, o => do
      -- the inner guard `hasOwnProperty.call(data, type)` re-tests the outer
      -- record's own key, which is always present, so no entry is skipped
      let m ← Converter.outputMap nm props o
      .ok (.obj m)
  | .L l, o => do
      let la ← Converter.outputList nm l o
      .ok (.arr la)
  | .SS l, _ =>
      -- each member is coerced with `listValues[i] + ''`, the identity on strings
      mkDynamoDBSet nm (l.map (fun s => NativeValue.str s))
  | .NS l, o =>
      mkDynamoDBSet nm (l.map (fun s => convertNumber nm s o.wrapNumbers))
  | .BS l, _ =>
      mkDynamoDBSet nm (l.map (fun b => NativeValue.bin (toBuffer b)))
  | .S s, _ => .ok (.str s) -- template stringification of a string is itself
  | .N s, o =>
      if s = "" then .ok .null -- `if (!numberString) return null`
      else .ok (convertNumber nm s o.wrapNumbers)
  | .B b, _ => .ok (.bin (toBuffer b))
  | .BOOL p, _ =>
      .ok (.bool (p.toStr == "true" || p.toStr == "TRUE" || p == .b true))
  | .NULL _, _ => .ok .null -- the boolean payload is not inspected
  | .empty, _ => .ok .undefinedV

/-- Unmarshalling loop of the `L` branch. -/
def Converter.outputList (nm : NumberModel) :
    List Attr → ConverterOptions → Except String (List (NativeValue nm.Num))
  | [], _ => .ok []
  | a :: rest, o => do
      let v ← Converter.output nm a o
      let l ← Converter.outputList nm rest o
      .ok (v :: l)

/-- Unmarshalling loop of the `M` branch, preserving keys. -/
def Converter.outputMap (nm : NumberModel) :
    List (String × Attr) → ConverterOptions →
    Except String (List (String × NativeValue nm.Num))
  | [], _ => .ok []
  | (k, a) :: rest, o => do
      let v ← Converter.output nm a o
      let m ← Converter.outputMap nm rest o
      .ok ((k, v) :: m)

end

/-- Converter.unmarshall: `this.output(\x7bM: data\x7d, options)`. -/
def Converter.unmarshall (nm : NumberModel)
    (record : List (String × Attr)) (o : ConverterOptions) :
    Except String (NativeValue nm.Num) :=
  Converter.output nm (.M record) o

theorem zeroStr_ne : ("0" : String) ≠ "" := by decide

/-- A trivially valid number model used to instantiate closed witnesses. -/
def unitModel : NumberModel where
  Num := Unit
  toStr := fun _ => "0"
  ofStr := fun _ => ()
  round := fun _ => rfl
  toStr_ne := fun _ h => zeroStr_ne h

mutual

/-- Values in the round-trip domain described by the spec: strings, numbers,
booleans, null, dates, binary payloads, and nested plain objects and arrays
of such values (no sets, no wrappers, nothing unconvertible). -/
def plain {Num : Type} : NativeValue Num → Bool
  | .str _ => true
  | .num _ => true
  | .bool _ => true
  | .null => true
  | .bin _ => true
  | .date _ _ => true
  | .arr l => plainList l
  | .obj props => plainMap props
  | .numWrap _ => false
  | .undefinedV => false
  | .func => false
  | .sset _ => false
  | .nset _ => false
  | .bset _ => false
  | .xset _ _ => false

def plainList {Num : Type} : List (NativeValue Num) → Bool
  | [] => true
  | v :: rest => plain v && plainList rest

def plainMap {Num : Type} : List (String × NativeValue Num) → Bool
  | [] => true
  | (_, v) :: rest => plain v && plainMap rest

end

mutual

/-- True when the value contains no date anywhere. -/
def dateFree {Num : Type} : NativeValue Num → Bool
  | .date _ _ => false
  | .arr l => dateFreeList l
  | .obj props => dateFreeMap props
  | .str _ => true
  | .num _ => true
  | .numWrap _ => true
  | .bool _ => true
  | .null => true
  | .undefinedV => true
  | .func => true
  | .bin _ => true
  | .sset _ => true
  | .nset _ => true
  | .bset _ => true
  | .xset _ _ => true

def dateFreeList {Num : Type} : List (NativeValue Num) → Bool
  | [] => true
  | v :: rest => dateFree v && dateFreeList rest

def dateFreeMap {Num : Type} : List (String × NativeValue Num) → Bool
  | [] => true
  | (_, v) :: rest => dateFree v && dateFreeMap rest

end

mutual

/-- Replace every date value by its ISO-8601 string form, recursively: the
shape in which a marshalled date reappears after a round trip. -/
def isoStrip {Num : Type} : NativeValue Num → NativeValue Num
  | .date iso _ => .str iso
  | .arr l => .arr (isoStripList l)
  | .obj props => .obj (isoStripMap props)
  | .str s => .str s
  | .num x => .num x
  | .numWrap w => .numWrap w
  | .bool b => .bool b
  | .null => .null
  | .undefinedV => .undefinedV
  | .func => .func
  | .bin b => .bin b
  | .sset l => .sset l
  | .nset l => .nset l
  | .bset l => .bset l
  | .xset t vals => .xset t vals

def isoStripList {Num : Type} : List (NativeValue Num) → List (NativeValue Num)
  | [] => []
  | v :: rest => isoStrip v :: isoStripList rest

def isoStripMap {Num : Type} :
    List (String × NativeValue Num) → List (String × NativeValue Num)
  | [] => []
  | (k, v) :: rest => (k, isoStrip v) :: isoStripMap rest

end

mutual

/-- True when no Set-classified value in the tree declares an element type
outside String / Number / Binary (i.e. the tree contains no `xset`). -/
def goodSets {Num : Type} : NativeValue Num → Bool
  | .xset _ _ => false
  | .arr l => goodSetsList l
  | .obj props => goodSetsMap props
  | .str _ => true
  | .num _ => true
  | .numWrap _ => true
  | .bool _ => true
  | .null => true
  | .undefinedV => true
  | .func => true
  | .date _ _ => true
  | .bin _ => true
  | .sset _ => true
  | .nset _ => true
  | .bset _ => true

def goodSetsList {Num : Type} : List (NativeValue Num) → Bool
  | [] => true
  | v :: rest => goodSets v && goodSetsList rest

def goodSetsMap {Num : Type} : List (String × NativeValue Num) → Bool
  | [] => true
  | (_, v) :: rest => goodSets v && goodSetsMap rest

end

mutual

/-- True when this attribute and every attribute nested below it has exactly
one populated key. -/
def Attr.allOneKey : Attr → Bool
  | .M props => Attr.allOneKeyMap props
  | .L l => Attr.allOneKeyList l
  | .empty => false
  | _ => true

def Attr.allOneKeyList : List Attr → Bool
  | [] => true
  | a :: rest => Attr.allOneKey a && Attr.allOneKeyList rest

def Attr.allOneKeyMap : List (String × Attr) → Bool
  | [] => true
  | (_, a) :: rest => Attr.allOneKey a && Attr.allOneKeyMap rest

end

theorem except_bind_ok {α β : Type} (x : Except String α)
    (f : α → Except String β) (c : β) :
    x.bind f = .ok c ↔ ∃ b, x = .ok b ∧ f b = .ok c := by
  cases x <;> simp [Except.bind]

mutual

theorem roundVal (nm : NumberModel) (v : NativeValue nm.Num)
    (h : plain v = true) :
    (Converter.input nm v {}).bind (fun a => Converter.output nm a {})
      = .ok (isoStrip v) := by
  match v with
  | .str s =>
      simp [Converter.input, Converter.output, isoStrip, Except.bind]
  | .num x =>
      simp [Converter.input, Converter.output, isoStrip, Except.bind,
        convertNumber, nm.toStr_ne x, nm.round x]
  | .numWrap w => simp [plain] at h
  | .bool b =>
      cases b <;>
        simp [Converter.input, Converter.output, isoStrip, Except.bind,
          BoolLike.toStr]
  | .null =>
      simp [Converter.input, Converter.output, isoStrip, Except.bind]
  | .undefinedV => simp [plain] at h
  | .func => simp [plain] at h
  | .date iso unix =>
      simp [Converter.input, Converter.output, isoStrip, Except.bind]
  | .bin b =>
      simp [Converter.input, Converter.output, isoStrip, Except.bind, toBuffer]
  | .arr l =>
      have hl : plainList l = true := by simpa [plain] using h
      have ih := roundList nm l hl
      obtain ⟨as, has, houts⟩ := (except_bind_ok _ _ _).mp ih
      simp [Converter.input, Converter.output, Except.bind, bind, has, houts, isoStrip]
  | .obj props =>
      have hp : plainMap props = true := by simpa [plain] using h
      have ih := roundMap nm props hp
      obtain ⟨ms, hms, houts⟩ := (except_bind_ok _ _ _).mp ih
      simp [Converter.input, Converter.output, Except.bind, bind, hms, houts, isoStrip]
  | .sset l => simp [plain] at h
  | .nset l => simp [plain] at h
  | .bset l => simp [plain] at h
  | .xset t vals => simp [plain] at h

theorem roundList (nm : NumberModel) (l : List (NativeValue nm.Num))
    (h : plainList l = true) :
    (Converter.inputList nm l {}).bind
        (fun as => Converter.outputList nm as {})
      = .ok (isoStripList l) := by
  match l with
  | [] =>
      simp [Converter.inputList, Converter.outputList, isoStripList, Except.bind]
  | v :: rest =>
      rw [plainList] at h
      have hv : plain v = true := by
        cases hb : plain v <;> simp [hb] at h ⊢
      have hr : plainList rest = true := by
        cases hb : plainList rest <;> simp [hb] at h ⊢
      obtain ⟨a, ha, hout⟩ := (except_bind_ok _ _ _).mp (roundVal nm v hv)
      obtain ⟨as, has, houts⟩ := (except_bind_ok _ _ _).mp (roundList nm rest hr)
      simp [Converter.inputList, Converter.outputList, Except.bind, bind,
        ha, has, hout, houts, isoStripList]

theorem roundMap (nm : NumberModel) (props : List (String × NativeValue nm.Num))
    (h : plainMap props = true) :
    (Converter.inputMap nm props {}).bind
        (fun ms => Converter.outputMap nm ms {})
      = .ok (isoStripMap props) := by
  match props with
  | [] =>
      simp [Converter.inputMap, Converter.outputMap, isoStripMap, Except.bind]
  | (k, v) :: rest =>
      rw [plainMap] at h
      have hv : plain v = true := by
        cases hb : plain v <;> simp [hb] at h ⊢
      have hr : plainMap rest = true := by
        cases hb : plainMap rest <;> simp [hb] at h ⊢
      obtain ⟨a, ha, hout⟩ := (except_bind_ok _ _ _).mp (roundVal nm v hv)
      obtain ⟨ms, hms, houts⟩ := (except_bind_ok _ _ _).mp (roundMap nm rest hr)
      simp [Converter.inputMap, Converter.outputMap, Except.bind, bind,
        ha, hms, hout, houts, isoStripMap]

end

mutual

theorem isoStrip_id {Num : Type} (v : NativeValue Num)
    (h : dateFree v = true) : isoStrip v = v := by
  match v with
  | .date _ _ => simp [dateFree] at h
  | .arr l =>
      have := isoStripList_id l (by simpa [dateFree] using h)
      simp [isoStrip, this]
  | .obj props =>
      have := isoStripMap_id props (by simpa [dateFree] using h)
      simp [isoStrip, this]
  | .str _ => simp [isoStrip]
  | .num _ => simp [isoStrip]
  | .numWrap _ => simp [isoStrip]
  | .bool _ => simp [isoStrip]
  | .null => simp [isoStrip]
  | .undefinedV => simp [isoStrip]
  | .func => simp [isoStrip]
  | .bin _ => simp [isoStrip]
  | .sset _ => simp [isoStrip]
  | .nset _ => simp [isoStrip]
  | .bset _ => simp [isoStrip]
  | .xset _ _ => simp [isoStrip]

theorem isoStripList_id {Num : Type} (l : List (NativeValue Num))
    (h : dateFreeList l = true) : isoStripList l = l := by
  match l with
  | [] => simp [isoStripList]
  | v :: rest =>
      rw [dateFreeList] at h
      have hv : dateFree v = true := by
        cases hb : dateFree v <;> simp [hb] at h ⊢
      have hr : dateFreeList rest = true := by
        cases hb : dateFreeList rest <;> simp [hb] at h ⊢
      simp [isoStripList, isoStrip_id v hv, isoStripList_id rest hr]

theorem isoStripMap_id {Num : Type} (props : List (String × NativeValue Num))
    (h : dateFreeMap props = true) : isoStripMap props = props := by
  match props with
  | [] => simp [isoStripMap]
  | (k, v) :: rest =>
      rw [dateFreeMap] at h
      have hv : dateFree v = true := by
        cases hb : dateFree v <;> simp [hb] at h ⊢
      have hr : dateFreeMap rest = true := by
        cases hb : dateFreeMap rest <;> simp [hb] at h ⊢
      simp [isoStripMap, isoStrip_id v hv, isoStripMap_id rest hr]

end

mutual

theorem inputOneKey (nm : NumberModel) (v : NativeValue nm.Num)
    (o : ConverterOptions) (h : goodSets v = true) :
    ∀ a, Converter.input nm v o = .ok a → Attr.allOneKey a = true := by
  match v with
  | .str s =>
      intro a ha
      simp only [Converter.input] at ha
      repeat' split at ha
      all_goals first
      | (cases ha <;> simp [Attr.allOneKey])
      | cases ha
  | .num x =>
      intro a ha
      simp only [Converter.input] at ha
      repeat' split at ha
      all_goals first
      | (cases ha <;> simp [Attr.allOneKey])
      | cases ha
  | .numWrap w =>
      intro a ha
      simp only [Converter.input] at ha
      repeat' split at ha
      all_goals first
      | (cases ha <;> simp [Attr.allOneKey])
      | cases ha
  | .bool b =>
      intro a ha
      simp only [Converter.input] at ha
      repeat' split at ha
      all_goals first
      | (cases ha <;> simp [Attr.allOneKey])
      | cases ha
  | .null =>
      intro a ha
      simp only [Converter.input] at ha
      repeat' split at ha
      all_goals first
      | (cases ha <;> simp [Attr.allOneKey])
      | cases ha
  | .undefinedV =>
      intro a ha
      simp only [Converter.input] at ha
      repeat' split at ha
      all_goals first
      | (cases ha <;> simp [Attr.allOneKey])
      | cases ha
  | .func =>
      intro a ha
      simp only [Converter.input] at ha
      repeat' split at ha
      all_goals first
      | (cases ha <;> simp [Attr.allOneKey])
      | cases ha
  | .date iso unix =>
      intro a ha
      simp only [Converter.input] at ha
      repeat' split at ha
      all_goals first
      | (cases ha <;> simp [Attr.allOneKey])
      | cases ha
  | .bin b =>
      intro a ha
      simp only [Converter.input] at ha
      repeat' split at ha
      all_goals first
      | (cases ha <;> simp [Attr.allOneKey])
      | cases ha
  | .sset l =>
      intro a ha
      simp only [Converter.input] at ha
      repeat' split at ha
      all_goals first
      | (cases ha <;> simp [Attr.allOneKey])
      | cases ha
  | .nset l =>
      intro a ha
      simp only [Converter.input] at ha
      repeat' split at ha
      all_goals first
      | (cases ha <;> simp [Attr.allOneKey])
      | cases ha
  | .bset l =>
      intro a ha
      simp only [Converter.input] at ha
      repeat' split at ha
      all_goals first
      | (cases ha <;> simp [Attr.allOneKey])
      | cases ha
  | .xset t vals => simp [goodSets] at h
  | .arr l =>
      intro a ha
      have hl : goodSetsList l = true := by simpa [goodSets] using h
      simp only [Converter.input, bind, Except.bind] at ha
      cases hla : Converter.inputList nm l o with
      | error e => simp [hla] at ha
      | ok la =>
          simp [hla] at ha
          subst ha
          simpa [Attr.allOneKey] using inputListOneKey nm l o hl la hla
  | .obj props =>
      intro a ha
      have hp : goodSetsMap props = true := by simpa [goodSets] using h
      simp only [Converter.input, bind, Except.bind] at ha
      cases hms : Converter.inputMap nm props o with
      | error e => simp [hms] at ha
      | ok ms =>
          simp [hms] at ha
          subst ha
          simpa [Attr.allOneKey] using inputMapOneKey nm props o hp ms hms

theorem inputListOneKey (nm : NumberModel) (l : List (NativeValue nm.Num))
    (o : ConverterOptions) (h : goodSetsList l = true) :
    ∀ as, Converter.inputList nm l o = .ok as → Attr.allOneKeyList as = true := by
  match l with
  | [] =>
      intro as has
      simp only [Converter.inputList] at has
      simp_all [Attr.allOneKeyList]
  | v :: rest =>
      intro as has
      rw [goodSetsList] at h
      have hv : goodSets v = true := by
        cases hb : goodSets v <;> simp [hb] at h ⊢
      have hr : goodSetsList rest = true := by
        cases hb : goodSetsList rest <;> simp [hb] at h ⊢
      simp only [Converter.inputList, bind, Except.bind] at has
      cases ha : Converter.input nm v o with
      | error e => simp [ha] at has
      | ok a =>
          simp [ha] at has
          cases hrest : Converter.inputList nm rest o with
          | error e => simp [hrest] at has
          | ok restAs =>
              simp [hrest] at has
              subst has
              simp [Attr.allOneKeyList, inputOneKey nm v o hv a ha,
                inputListOneKey nm rest o hr restAs hrest]

theorem inputMapOneKey (nm : NumberModel)
    (props : List (String × NativeValue nm.Num))
    (o : ConverterOptions) (h : goodSetsMap props = true) :
    ∀ ms, Converter.inputMap nm props o = .ok ms →
      Attr.allOneKeyMap ms = true := by
  match props with
  | [] =>
      intro ms hms
      simp only [Converter.inputMap] at hms
      simp_all [Attr.allOneKeyMap]
  | (k, v) :: rest =>
      intro ms hms
      rw [goodSetsMap] at h
      have hv : goodSets v = true := by
        cases hb : goodSets v <;> simp [hb] at h ⊢
      have hr : goodSetsMap rest = true := by
        cases hb : goodSetsMap rest <;> simp [hb] at h ⊢
      simp only [Converter.inputMap, bind, Except.bind] at hms
      cases ha : Converter.input nm v o with
      | error e => simp [ha] at hms
      | ok a =>
          simp [ha] at hms
          cases hrest : Converter.inputMap nm rest o with
          | error e => simp [hrest] at hms
          | ok restMs =>
              simp [hrest] at hms
              subst hms
              simp [Attr.allOneKeyMap, inputOneKey nm v o hv a ha,
                inputMapOneKey nm rest o hr restMs hrest]

end

mutual

theorem outputCongr (nm : NumberModel) (a : Attr) (o1 o2 : ConverterOptions)
    (h : o1.wrapNumbers = o2.wrapNumbers) :
    Converter.output nm a o1 = Converter.output nm a o2 := by
  match a with
  | .M props =>
      simp only [Converter.output]
      rw [outputMapCongr nm props o1 o2 h]
  | .L l =>
      simp only [Converter.output]
      rw [outputListCongr nm l o1 o2 h]
  | .SS l => simp only [Converter.output]
  | .NS l => simp only [Converter.output, h]
  | .BS l => simp only [Converter.output]
  | .S s => simp only [Converter.output]
  | .N s => simp only [Converter.output, h]
  | .B b => simp only [Converter.output]
  | .BOOL p => simp only [Converter.output]
  | .NULL b => simp only [Converter.output]
  | .empty => simp only [Converter.output]

theorem outputListCongr (nm : NumberModel) (l : List Attr)
    (o1 o2 : ConverterOptions) (h : o1.wrapNumbers = o2.wrapNumbers) :
    Converter.outputList nm l o1 = Converter.outputList nm l o2 := by
  match l with
  | [] => simp only [Converter.outputList]
  | a :: rest =>
      simp only [Converter.outputList]
      rw [outputCongr nm a o1 o2 h, outputListCongr nm rest o1 o2 h]

theorem outputMapCongr (nm : NumberModel) (props : List (String × Attr))
    (o1 o2 : ConverterOptions) (h : o1.wrapNumbers = o2.wrapNumbers) :
    Converter.outputMap nm props o1 = Converter.outputMap nm props o2 := by
  match props with
  | [] => simp only [Converter.outputMap]
  | (k, a) :: rest =>
      simp only [Converter.outputMap]
      rw [outputCongr nm a o1 o2 h, outputMapCongr nm rest o1 o2 h]

end

theorem inputList_append_err (nm : NumberModel) (o : ConverterOptions)
    (l1 : List (NativeValue nm.Num)) (v : NativeValue nm.Num)
    (l2 : List (NativeValue nm.Num)) (as : List Attr)
    (h1 : Converter.inputList nm l1 o = .ok as) (e : String)
    (hv : Converter.input nm v o = .error e) :
    Converter.inputList nm (l1 ++ v :: l2) o = .error e := by
  induction l1 generalizing as with
  | nil => simp [Converter.inputList, hv, bind, Except.bind]
  | cons x rest ih =>
      simp only [List.cons_append, Converter.inputList, bind, Except.bind]
        at h1 ⊢
      cases hx : Converter.input nm x o with
      | error e' => simp [hx] at h1
      | ok a =>
          simp only [hx] at h1 ⊢
          cases hrest : Converter.inputList nm rest o with
          | error e' => simp [hrest] at h1
          | ok as' => simp [ih as' hrest]

theorem inputMap_append_err (nm : NumberModel) (o : ConverterOptions)
    (props1 : List (String × NativeValue nm.Num)) (k : String)
    (v : NativeValue nm.Num) (props2 : List (String × NativeValue nm.Num))
    (ms1 : List (String × Attr))
    (h1 : Converter.inputMap nm props1 o = .ok ms1) (e : String)
    (hv : Converter.input nm v o = .error e) :
    Converter.inputMap nm (props1 ++ (k, v) :: props2) o = .error e := by
  induction props1 generalizing ms1 with
  | nil => simp [Converter.inputMap, hv, bind, Except.bind]
  | cons p rest ih =>
      obtain ⟨k', v'⟩ := p
      simp only [List.cons_append, Converter.inputMap, bind, Except.bind]
        at h1 ⊢
      cases hx : Converter.input nm v' o with
      | error e' => simp [hx] at h1
      | ok a =>
          simp only [hx] at h1 ⊢
          cases hrest : Converter.inputMap nm rest o with
          | error e' => simp [hrest] at h1
          | ok ms' => simp [ih ms' hrest]

theorem inputMap_entries (nm : NumberModel) (o : ConverterOptions) :
    ∀ (props : List (String × NativeValue nm.Num)) (ms : List (String × Attr)),
      Converter.inputMap nm props o = .ok ms →
      List.Forall₂
        (fun p q => p.1 = q.1 ∧ Converter.input nm p.2 o = .ok q.2) props ms := by
  intro props
  induction props with
  | nil =>
      intro ms hms
      simp [Converter.inputMap] at hms
      simp [← hms]
  | cons p rest ih =>
      intro ms hms
      obtain ⟨k, v⟩ := p
      simp only [Converter.inputMap, bind, Except.bind] at hms
      cases ha : Converter.input nm v o with
      | error e => simp [ha] at hms
      | ok a =>
          simp [ha] at hms
          cases hrest : Converter.inputMap nm rest o with
          | error e => simp [hrest] at hms
          | ok restMs =>
              simp [hrest] at hms
              subst hms
              exact List.Forall₂.cons ⟨rfl, ha⟩ (ih restMs hrest)

/-- C1: for every native record built only from strings, finite numbers,
booleans, null, nested plain objects, arrays of such values, and binary
payloads (no sets), unmarshalling the marshalled record with default options
restores the record exactly; date values reappear as their ISO-8601 string
form rather than as date instances. -/
theorem c1_round_trip (nm : NumberModel)
    (R : List (String × NativeValue nm.Num)) (h : plainMap R = true) :
    ((Converter.marshall nm R {}).bind fun m => Converter.unmarshall nm m {})
      = .ok (.obj (isoStripMap R))
    ∧ (dateFreeMap R = true → isoStripMap R = R) := by
  constructor
  · obtain ⟨ms, hms, houts⟩ := (except_bind_ok _ _ _).mp (roundMap nm R h)
    simp [Converter.marshall, Converter.unmarshall, Converter.input,
      Converter.output, Except.bind, bind, hms, houts]
  · intro hd
    exact isoStripMap_id R hd

/-- C1 witness: the user record of the repository's test, marshalled and
unmarshalled with default options; every field returns, the date as its ISO
string. -/
theorem c1_round_trip_witness :
    plainMap
      ([("id", .num ()), ("name", .str "Danny"),
       ("favorites", .arr [.str "apples", .str "pears"]),
       ("lastPayment", .null),
       ("createdAt", .date "2021-07-09T21:44:07.015Z" 1625867047),
       ("profilePicture", .bin [137, 80, 78, 71]),
       ("address", .obj [("streetNumber", .num ()), ("streetName", .str "Drive")])]
        : List (String × NativeValue Unit))
      = true
  ∧ ((Converter.marshall unitModel
      [("id", .num ()), ("name", .str "Danny"),
       ("favorites", .arr [.str "apples", .str "pears"]),
       ("lastPayment", .null),
       ("createdAt", .date "2021-07-09T21:44:07.015Z" 1625867047),
       ("profilePicture", .bin [137, 80, 78, 71]),
       ("address", .obj [("streetNumber", .num ()), ("streetName", .str "Drive")])]
      {}).bind fun m => Converter.unmarshall unitModel m {})
      = .ok (.obj
      [("id", .num ()), ("name", .str "Danny"),
       ("favorites", .arr [.str "apples", .str "pears"]),
       ("lastPayment", .null),
       ("createdAt", .str "2021-07-09T21:44:07.015Z"),
       ("profilePicture", .bin [137, 80, 78, 71]),
       ("address", .obj [("streetNumber", .num ()), ("streetName", .str "Drive")])]) := by
  constructor
  · simp [plainMap, plain, plainList]
  · have h := (c1_round_trip unitModel
      [("id", .num ()), ("name", .str "Danny"),
       ("favorites", .arr [.str "apples", .str "pears"]),
       ("lastPayment", .null),
       ("createdAt", .date "2021-07-09T21:44:07.015Z" 1625867047),
       ("profilePicture", .bin [137, 80, 78, 71]),
       ("address", .obj [("streetNumber", .num ()), ("streetName", .str "Drive")])]
      (by simp [plainMap, plain, plainList])).1
    simpa [isoStripMap, isoStrip, isoStripList] using h

/-- C2: the claim says Typed Set construction succeeds for a non-empty list
whose first element is a string, number, numeric wrapper, or binary value.
The code cannot do this: `initialize` discards the result of
`Array.prototype.concat`, so `values` stays empty, the inferred member type
is that of `undefined`, and the constructor throws its Invalid Set
Composition error for every input list whatsoever. -/
theorem c2_set_construction_always_fails (nm : NumberModel)
    (list : List (NativeValue nm.Num)) :
    mkDynamoDBSet nm list
      = .error "Sets can contain string, number, or binary values" := by
  simp [mkDynamoDBSet, memberTypeToSetType]

/-- C3: the claim says unmarshalling `SS`/`NS`/`BS` returns a Typed Set of
the coerced members.  Because `DynamoDBSet` construction always throws (see
C2), `Converter.output` instead raises the Invalid Set Composition error on
every set-typed attribute. -/
theorem c3_unmarshal_set_raises (nm : NumberModel) (o : ConverterOptions)
    (ss ns : List String) (bs : List Bin) :
    Converter.output nm (.SS ss) o
      = .error "Sets can contain string, number, or binary values"
  ∧ Converter.output nm (.NS ns) o
      = .error "Sets can contain string, number, or binary values"
  ∧ Converter.output nm (.BS bs) o
      = .error "Sets can contain string, number, or binary values" := by
  refine ⟨?_, ?_, ?_⟩ <;>
    simp [Converter.output, mkDynamoDBSet, memberTypeToSetType]

/-- C4 counterexample: a Set-classified input whose declared type is not
String, Number or Binary marshals normally — but to an attribute with zero
populated keys, because the switch in `formatSet` has no default case and
returns the freshly created empty map. -/
theorem c4_zero_keys_cex :
    Converter.input unitModel (.xset "Foo" ["a"]) {} = .ok .empty
  ∧ Attr.keyCount .empty = 0 := by
  refine ⟨?_, rfl⟩
  simp [Converter.input]

/-- C4 (amended): marshalling returns an attribute in which exactly one key
is populated, recursively at every level, provided every Set-classified
value in the input declares element type String, Number or Binary; a
Set-classified input with any other declared type instead yields an
attribute with no populated key. -/
theorem c4_single_key_amended (nm : NumberModel) (v : NativeValue nm.Num)
    (o : ConverterOptions) (a : Attr) (hg : goodSets v = true)
    (ha : Converter.input nm v o = .ok a) :
    Attr.allOneKey a = true :=
  inputOneKey nm v o hg a ha

/-- C4 witness: a record holding a String-typed set marshals to a map whose
attributes are all single-keyed. -/
theorem c4_single_key_amended_witness :
    goodSets ((.obj [("tags", .sset ["x"])]) : NativeValue Unit) = true
  ∧ Attr.allOneKey (.M [("tags", .SS ["x"])]) = true := by
  constructor
  · simp [goodSets, goodSetsMap]
  · exact c4_single_key_amended unitModel (.obj [("tags", .sset ["x"])]) {}
      (.M [("tags", .SS ["x"])])
      (by simp [goodSets, goodSetsMap])
      (by simp [Converter.input, Converter.inputMap, bind, Except.bind])

/-- C5 counterexample: a property holding `undefined` is not silently
omitted — marshalling the record raises the Unconvertible Type error,
because `Converter.input` throws on `undefined` before the dead
`formatted !== void 0` guard in `formatMap` could ever skip anything. -/
theorem c5_undefined_not_omitted_cex :
    Converter.marshall unitModel [("a", .str "x"), ("b", .undefinedV)] {}
      = .error (unconvertibleMsg "undefined")
  ∧ Converter.marshall unitModel [("a", .str "x"), ("b", .undefinedV)] {}
      ≠ .ok [("a", Attr.S "x")] := by
  constructor
  · simp [Converter.marshall, Converter.input, Converter.inputMap, bind,
      Except.bind]
  · simp [Converter.marshall, Converter.input, Converter.inputMap, bind,
      Except.bind]

/-- C5 (amended): when marshalling an object into an M attribute, every
enumerable own property is recursively marshalled, key for key and in
order; but a property whose value classifies as Undefined causes the whole
marshal to fail with the Unconvertible Type error rather than being
omitted (the undefined-result filter in the map builder is unreachable
because marshalling never returns an undefined result). -/
theorem c5_map_marshal_amended (nm : NumberModel) (o : ConverterOptions) :
    (∀ (props : List (String × NativeValue nm.Num)) (ms : List (String × Attr)),
        Converter.inputMap nm props o = .ok ms →
        List.Forall₂
          (fun p q => p.1 = q.1 ∧ Converter.input nm p.2 o = .ok q.2) props ms)
  ∧ (∀ (props1 : List (String × NativeValue nm.Num)) (k : String)
        (props2 : List (String × NativeValue nm.Num)) (ms1 : List (String × Attr)),
        Converter.inputMap nm props1 o = .ok ms1 →
        Converter.marshall nm (props1 ++ (k, .undefinedV) :: props2) o
          = .error (unconvertibleMsg "undefined")) := by
  constructor
  · exact inputMap_entries nm o
  · intro props1 k props2 ms1 h1
    have he := inputMap_append_err nm o props1 k .undefinedV props2 ms1 h1
      (unconvertibleMsg "undefined") (by simp [Converter.input])
    simp [Converter.marshall, Converter.input, bind, Except.bind, he]

/-- C5 witness: a one-property object marshals entry for entry, and
appending an undefined-valued property makes the whole marshal fail. -/
theorem c5_map_marshal_amended_witness :
    List.Forall₂
      (fun (p : String × NativeValue Unit) (q : String × Attr) =>
        p.1 = q.1 ∧ Converter.input unitModel p.2 {} = .ok q.2)
      [("a", .str "x")] [("a", Attr.S "x")]
  ∧ Converter.marshall unitModel [("a", .str "x"), ("b", .undefinedV)] {}
      = .error (unconvertibleMsg "undefined") := by
  constructor
  · exact (c5_map_marshal_amended unitModel {}).1 [("a", .str "x")]
      [("a", Attr.S "x")]
      (by simp [Converter.inputMap, Converter.input, bind, Except.bind])
  · exact (c5_map_marshal_amended unitModel {}).2 [("a", .str "x")] "b" []
      [("a", Attr.S "x")]
      (by simp [Converter.inputMap, Converter.input, bind, Except.bind])

/-- C6: marshalling raises the Unconvertible Type error, naming the
classified type, whenever the input — as the entire top-level value or as a
nested array element — classifies as Undefined or Function; the failure
propagates to the caller with no partial result. -/
theorem c6_unconvertible (nm : NumberModel) (o : ConverterOptions)
    (l1 l2 : List (NativeValue nm.Num))
    (h : ∃ as, Converter.inputList nm l1 o = .ok as) :
    Converter.input nm .undefinedV o = .error (unconvertibleMsg "undefined")
  ∧ Converter.input nm .func o = .error (unconvertibleMsg "Function")
  ∧ Converter.input nm (.arr (l1 ++ .undefinedV :: l2)) o
      = .error (unconvertibleMsg "undefined")
  ∧ Converter.input nm (.arr (l1 ++ .func :: l2)) o
      = .error (unconvertibleMsg "Function") := by
  obtain ⟨as, has⟩ := h
  refine ⟨by simp [Converter.input], by simp [Converter.input], ?_, ?_⟩
  · have he := inputList_append_err nm o l1 .undefinedV l2 as has
      (unconvertibleMsg "undefined") (by simp [Converter.input])
    simp [Converter.input, bind, Except.bind, he]
  · have he := inputList_append_err nm o l1 .func l2 as has
      (unconvertibleMsg "Function") (by simp [Converter.input])
    simp [Converter.input, bind, Except.bind, he]

/-- C6 witness: an array whose second element is undefined fails to marshal
with the Unconvertible Type error naming `undefined`. -/
theorem c6_unconvertible_witness :
    (∃ as, Converter.inputList unitModel [.str "a"] {} = .ok as)
  ∧ Converter.input unitModel (.arr ([.str "a"] ++ .undefinedV :: [])) {}
      = .error (unconvertibleMsg "undefined") := by
  refine ⟨⟨[Attr.S "a"], by simp [Converter.inputList, Converter.input,
    bind, Except.bind]⟩, ?_⟩
  exact (c6_unconvertible unitModel {} [.str "a"] []
    ⟨[Attr.S "a"], by simp [Converter.inputList, Converter.input,
      bind, Except.bind]⟩).2.2.1

/-- C7: unmarshalling a BOOL attribute yields true exactly when the payload
is the boolean true, the string "true", or the string "TRUE"; every other
payload yields false. -/
theorem c7_bool_normalization (nm : NumberModel) (p : BoolLike)
    (o : ConverterOptions) :
    (Converter.output nm (.BOOL p) o = .ok (.bool true)
      ↔ (p = .b true ∨ p = .s "true" ∨ p = .s "TRUE"))
  ∧ (Converter.output nm (.BOOL p) o = .ok (.bool false)
      ↔ ¬(p = .b true ∨ p = .s "true" ∨ p = .s "TRUE")) := by
  cases p with
  | b x => cases x <;> simp [Converter.output, BoolLike.toStr]
  | s x =>
      constructor <;> simp [Converter.output, BoolLike.toStr] <;> tauto

/-- C8: with convertEmptyValues set, the empty string marshals to
NULL — the same attribute null itself marshals to — and so does a
zero-length binary payload; without the flag the empty string marshals to
an S attribute holding the empty string. -/
theorem c8_empty_values (nm : NumberModel) (o oN : ConverterOptions)
    (h : o.convertEmptyValues = true) (hN : oN.convertEmptyValues = false) :
    Converter.input nm (.str "") o = .ok (.NULL true)
  ∧ Converter.input nm .null o = .ok (.NULL true)
  ∧ Converter.input nm (.bin []) o = .ok (.NULL true)
  ∧ Converter.input nm (.str "") oN = .ok (.S "") := by
  refine ⟨?_, ?_, ?_, ?_⟩ <;> simp [Converter.input, h, hN, Bin.len]

/-- C8 witness: the empty-value policy evaluated at concrete options. -/
theorem c8_empty_values_witness :
    Converter.input unitModel (.str "")
      ⟨true, false, .iso⟩ = .ok (.NULL true)
  ∧ Converter.input unitModel (.null : NativeValue Unit)
      ⟨true, false, .iso⟩ = .ok (.NULL true)
  ∧ Converter.input unitModel (.bin [])
      ⟨true, false, .iso⟩ = .ok (.NULL true)
  ∧ Converter.input unitModel (.str "") {} = .ok (.S "") :=
  c8_empty_values unitModel ⟨true, false, .iso⟩ {} rfl rfl

/-- C9: a finite number marshals to an N attribute carrying its decimal
string form; unmarshalling a non-empty numeric string with wrapNumbers
yields a NumberValue wrapper whose string form is exactly that string, and
marshalling the wrapper reproduces the N attribute unchanged. -/
theorem c9_number_precision (nm : NumberModel) (x : nm.Num) (s : String)
    (o ow o2 : ConverterOptions) (hs : s ≠ "") (hw : ow.wrapNumbers = true) :
    Converter.input nm (.num x) o = .ok (.N (nm.toStr x))
  ∧ Converter.output nm (.N s) ow = .ok (.numWrap ⟨s⟩)
  ∧ NumberValue.toStr ⟨s⟩ = s
  ∧ Converter.input nm (.numWrap ⟨s⟩) o2 = .ok (.N s) := by
  refine ⟨?_, ?_, rfl, ?_⟩
  · simp [Converter.input]
  · simp [Converter.output, hs, convertNumber, hw]
  · simp [Converter.input, NumberValue.toStr]

/-- C9 witness: the wrapper round trip at the string "123.45". -/
theorem c9_number_precision_witness :
    Converter.input unitModel (.num ()) {} = .ok (.N "0")
  ∧ Converter.output unitModel (.N "123.45") ⟨false, true, .iso⟩
      = .ok (.numWrap ⟨"123.45"⟩)
  ∧ NumberValue.toStr ⟨"123.45"⟩ = "123.45"
  ∧ Converter.input unitModel (.numWrap ⟨"123.45"⟩) {} = .ok (.N "123.45") :=
  c9_number_precision unitModel () "123.45" {} ⟨false, true, .iso⟩ {}
    (by decide) rfl

/-- C10: unmarshalling is insensitive to every option except wrapNumbers:
two option records agreeing on wrapNumbers produce identical outputs on
every tagged attribute. -/
theorem c10_output_ignores_other_options (nm : NumberModel) (a : Attr)
    (o1 o2 : ConverterOptions) (h : o1.wrapNumbers = o2.wrapNumbers) :
    Converter.output nm a o1 = Converter.output nm a o2 :=
  outputCongr nm a o1 o2 h

/-- C10 witness: options differing in convertEmptyValues and dateFormat but
agreeing on wrapNumbers unmarshal an N attribute identically. -/
theorem c10_output_ignores_other_options_witness :
    (ConverterOptions.mk true false .unix).wrapNumbers
      = ({} : ConverterOptions).wrapNumbers
  ∧ Converter.output unitModel (.N "5") ⟨true, false, .unix⟩
      = Converter.output unitModel (.N "5") {} :=
  ⟨rfl, c10_output_ignores_other_options unitModel (.N "5")
    ⟨true, false, .unix⟩ {} rfl⟩
